import Mathlib

/-!
A shallow embedding of the sandboxed command terminal (`app.py`):
path confinement (`safe_path`), the whitelist command interpreter
(`run_whitelisted_command`), the trash subsystem (`_move_to_trash`,
`_restore_from_trash`) and the output-truncation step of the
native-process fallback.

Modelling conventions:
* a filesystem path is a list of POSIX segments (`List String`), absolute,
  rooted at `/`; `renderPath` gives its string form;
* the sandbox root (`Path.cwd() / "sandbox"`) is the concrete path
  `/srv/app/sandbox`; its particular location is environmental;
* file contents are text (`String`); the filesystem is an association list
  of files plus a list of directories;
* the host is POSIX (`os.name != "nt"`), so `shlex.split` runs in POSIX
  mode and `windows_translate` is dead code;
* external effects (psutil stats, subprocess execution, regex engine,
  hashing, `stat` metadata) are oracle fields of `Env`;
* text of OS exception messages is environment specific and is modelled by
  the fixed placeholder `OS_ERROR`;
* Python's `str.lower`/`str.isalpha` are modelled on ASCII.
-/

/-! ## Character and string helpers -/

/-- ASCII lowercasing of one character, as in `str.lower` for ASCII text. -/
def charLower (c : Char) : Char :=
  if 'A' ≤ c ∧ c ≤ 'Z' then Char.ofNat (c.toNat + 32) else c

/-- ASCII lowercasing of a string. -/
def strLower (s : String) : String := ⟨s.data.map charLower⟩

/-- Split a character list at every occurrence of `c`, keeping empty pieces,
like Python `str.split('/')`. -/
def splitChar (c : Char) : List Char → List (List Char)
  | [] => [[]]
  | x :: xs =>
    match splitChar c xs with
    | [] => [[x]]
    | p :: ps => if x = c then [] :: p :: ps else (x :: p) :: ps

/-- Join character lists with a separator, like Python `sep.join(...)`. -/
def joinSep (sep : List Char) : List (List Char) → List Char
  | [] => []
  | [x] => x
  | x :: y :: ys => x ++ sep ++ joinSep sep (y :: ys)

/-- Join strings with a separator string. -/
def strJoin (sep : String) (xs : List String) : String :=
  ⟨joinSep sep.data (xs.map String.data)⟩

/-- Substring containment on character lists, like Python `pat in hay`. -/
def subListB (pat : List Char) : List Char → Bool
  | [] => pat.isEmpty
  | c :: cs => pat.isPrefixOf (c :: cs) || subListB pat cs

/-- String prefix test, like Python `s.startswith(pre)` (`pre` first). -/
def strIsPre (pre s : String) : Bool := pre.data.isPrefixOf s.data

/-- Does the string start with `-` (Python `tok.startswith("-")`)? -/
def headDash (s : String) : Bool := s.data.head? = some '-'

/-- Python `str.isalpha` restricted to ASCII letters: nonempty and
all-alphabetic. -/
def isAlphaStr (s : String) : Bool := !s.data.isEmpty && s.data.all Char.isAlpha

/-! ## Paths: `pathlib` on POSIX -/

/-- A parsed user-supplied path: `pathlib.PurePosixPath` keeps whether the
path is absolute and its components, dropping empty and `.` components and
keeping `..`. -/
structure PPath where
  absolute : Bool
  segs : List String
deriving DecidableEq, Repr

/-- Parse a path string the way `pathlib.PurePosixPath` does. -/
def parsePath (s : String) : PPath :=
  { absolute := s.data.head? = some '/'
    segs := (splitChar '/' s.data).filterMap fun p =>
      if p = [] ∨ p = ['.'] then none else some ⟨p⟩ }

/-- Lexical normalization of an absolute segment list: eliminate `..`
against the parent, as `Path.resolve()` does in the absence of symlinks
(`/..` collapses to `/`). -/
def normSegs (segs : List String) : List String :=
  segs.foldl (fun acc s => if s = ".." then acc.dropLast else acc ++ [s]) []

/-- String form of an absolute path, like `str(Path(...))`. -/
def renderPath (segs : List String) : String :=
  "/" ++ strJoin "/" segs

/-- `pathlib` join of an absolute path with one name component:
`p / ""` is `p` itself. -/
def joinSeg (d : List String) (n : String) : List String :=
  if n = "" then d else d ++ [n]

/-- `pathlib` `/` with a full path string on the right: an absolute right
operand replaces the left one. -/
def pyJoin (base : List String) (s : String) : List String :=
  let p := parsePath s
  if p.absolute then p.segs else base ++ p.segs

/-- `Path(s).name`: the final component (may be `..`; empty for `""`, `"."`
and `"/"`). -/
def pyName (s : String) : String := (parsePath s).segs.getLastD ""

/-- Index of the last `.` in a character list, if any. -/
def lastDotIdx (l : List Char) : Option Nat :=
  (l.reverse.findIdx? (· = '.')).map (fun j => l.length - 1 - j)

/-- `PurePath.suffix` of a name: `name[i:]` for the last dot index `i` when
`0 < i < len(name) - 1`, else `""`. -/
def pySuffix (name : String) : String :=
  match lastDotIdx name.data with
  | some i => if 0 < i ∧ i + 1 < name.data.length then ⟨name.data.drop i⟩ else ""
  | none => ""

/-- `PurePath.stem` of a name: everything before the suffix. -/
def pyStem (name : String) : String :=
  match lastDotIdx name.data with
  | some i => if 0 < i ∧ i + 1 < name.data.length then ⟨name.data.take i⟩ else name
  | none => name

/-- SandboxRoot: `Path.cwd() / "sandbox"` with the process working
directory modelled as `/srv/app`. -/
def ROOT : List String := ["srv", "app", "sandbox"]

/-- The hidden trash directory `ROOT / ".trash"`. -/
def TRASH : List String := ROOT ++ [".trash"]

/-- `safe_path` from `app.py`: map a user path string and a base directory
to a path intended to stay inside the sandbox.  Absolute inputs are
re-rooted under `ROOT`; relative inputs resolve against the base; if the
string form of the candidate does not start with the string form of `ROOT`,
fall back to `ROOT / Path(path_str).name`, resolved. -/
def safe_path (s : String) (baseSegs : List String) : List String :=
  let base := normSegs baseSegs
  let p := parsePath s
  let candidate :=
    if p.absolute then normSegs (ROOT ++ p.segs) else normSegs (base ++ p.segs)
  if strIsPre (renderPath ROOT) (renderPath candidate) then candidate
  else normSegs (joinSeg ROOT (pyName s))

example : parsePath "../../etc/passwd" = ⟨false, ["..", "..", "etc", "passwd"]⟩ := by decide
example : parsePath "/etc/passwd" = ⟨true, ["etc", "passwd"]⟩ := by decide
example : parsePath "" = ⟨false, []⟩ := by decide
example : pyName ".." = ".." := by decide
example : pyName "../../etc/passwd" = "passwd" := by decide
example : safe_path "/etc/passwd" ROOT = ROOT ++ ["etc", "passwd"] := by decide
example : safe_path "" ROOT = ROOT := by decide
example : safe_path "../../etc/passwd" ROOT = ROOT ++ ["passwd"] := by decide
example : safe_path ".." ROOT = ["srv", "app"] := by decide
example : pySuffix "f.txt" = ".txt" ∧ pyStem "f.txt" = "f" := by decide
example : pySuffix "f." = "" ∧ pyStem "f." = "f." := by decide
example : pySuffix ".bashrc" = "" ∧ pyStem ".bashrc" = ".bashrc" := by decide
example : pySuffix "a.tar.gz" = ".gz" ∧ pyStem "a.tar.gz" = "a.tar" := by decide

/-! ## Filesystem and engine state -/

/-- The engine's mutable state: `CURRENT_DIR` plus the sandbox filesystem,
modelled as an association list of text files and a list of directories
(all absolute segment lists). -/
structure EngineState where
  cwd : List String
  files : List (List String × String)
  dirs : List (List String)
deriving DecidableEq, Repr

/-- Structural association-list lookup of a file's content. -/
def fileContent : List (List String × String) → List String → Option String
  | [], _ => none
  | (k, v) :: rest, p => if k = p then some v else fileContent rest p

/-- Bind `target` to `content`, replacing any previous binding. -/
def setFile (fs : List (List String × String)) (target : List String)
    (content : String) : List (List String × String) :=
  (target, content) :: fs.filter (fun kv => kv.1 ≠ target)

/-- Add a directory if absent. -/
def insertPath (ds : List (List String)) (p : List String) : List (List String) :=
  if p ∈ ds then ds else p :: ds

def isDirB (st : EngineState) (p : List String) : Bool := decide (p ∈ st.dirs)

def isFileB (st : EngineState) (p : List String) : Bool :=
  (fileContent st.files p).isSome

/-- `Path.exists()` on the modelled filesystem. -/
def pexistsB (st : EngineState) (p : List String) : Bool :=
  isDirB st p || isFileB st p

/-- Rebase one path from `src` to `dst` if `src` is a prefix of it. -/
def rebind (src dst p : List String) : List String :=
  if src.isPrefixOf p then dst ++ p.drop src.length else p

/-- Move the subtree at `src` to `dst` (`Path.replace` / `shutil.move`). -/
def movePath (st : EngineState) (src dst : List String) : EngineState :=
  { st with
    files := st.files.map (fun kv => (rebind src dst kv.1, kv.2))
    dirs := st.dirs.map (rebind src dst) }

/-- Permanent removal: `shutil.rmtree` for a directory target, `unlink`
for a file target. -/
def deletePath (st : EngineState) (target : List String) : EngineState :=
  if isDirB st target then
    { st with
      files := st.files.filter (fun kv => ¬ target.isPrefixOf kv.1)
      dirs := st.dirs.filter (fun d => ¬ target.isPrefixOf d) }
  else { st with files := st.files.filter (fun kv => kv.1 ≠ target) }

/-- `target.parent.mkdir(parents=True, exist_ok=True)` fails when a strict
ancestor of `target` exists as a regular file. -/
def parentBlocked (st : EngineState) (target : List String) : Bool :=
  (List.range target.length).any (fun k => isFileB st (target.take k))

/-- Create every strict ancestor of `target` as a directory. -/
def addParents (ds : List (List String)) (target : List String) : List (List String) :=
  (List.range target.length).foldl (fun acc k => insertPath acc (target.take k)) ds

/-! ## Decimal representation length facts

`_move_to_trash` and `_restore_from_trash` search `<pre><n><post>` for
increasing `n` until the name is free.  Termination needs that the family
`n ↦ Nat.repr n` is unbounded; we derive that from length bounds on
`Nat.toDigitsCore`. -/

theorem toDigitsCore_length_lb (f n e : Nat) (he : 10 ^ e ≤ n) (hf : n < f) :
    e + 1 ≤ (Nat.toDigitsCore 10 f n []).length := by
  induction f generalizing n e with
  | zero => omega
  | succ f ih =>
    by_cases h10 : n / 10 = 0
    · have hn10 : n < 10 := by
        rcases Nat.div_eq_zero_iff (by norm_num) |>.mp h10 with h
        · exact h
      have he0 : e = 0 := by
        by_contra hne
        have h1 : (10 : Nat) ^ 1 ≤ 10 ^ e :=
          Nat.pow_le_pow_right (by norm_num) (by omega)
        simp at h1
        omega
      subst he0
      simp [Nat.toDigitsCore, h10]
    · have hn0 : 0 < n := by
        have := Nat.pow_pos (a := 10) (n := e) (by norm_num)
        omega
      have hstep : Nat.toDigitsCore 10 (f + 1) n [] =
          Nat.toDigitsCore 10 f (n / 10) [Nat.digitChar (n % 10)] := by
        simp [Nat.toDigitsCore, h10]
      rw [hstep, Nat.toDigitsCore_lens_eq]
      have hnf : n / 10 < f := by
        have := Nat.div_lt_self hn0 (by norm_num : 1 < 10)
        omega
      cases e with
      | zero => omega
      | succ e' =>
        have hdiv : 10 ^ e' ≤ n / 10 := by
          rw [Nat.le_div_iff_mul_le (by norm_num)]
          calc 10 ^ e' * 10 = 10 ^ (e' + 1) := (pow_succ 10 e').symm
            _ ≤ n := he
        have := ih (n / 10) e' hdiv hnf
        omega

theorem repr_length_lb (n e : Nat) (he : 10 ^ e ≤ n) :
    e + 1 ≤ (Nat.repr n).length := by
  have : (Nat.repr n).length = (Nat.toDigitsCore 10 (n + 1) n []).length := rfl
  rw [this]
  exact toDigitsCore_length_lb (n + 1) n e he (Nat.lt_succ_self n)

theorem repr_length_pos (n : Nat) : 0 < (Nat.repr n).length := by
  cases n with
  | zero => decide
  | succ m =>
    have := repr_length_lb (m + 1) 0 (by simp)
    omega

theorem repr_pow10_length (k : Nat) : (Nat.repr (10 ^ k)).length = k + 1 := by
  refine le_antisymm ?_ (repr_length_lb _ _ le_rfl)
  exact Nat.repr_length _ _ (Nat.succ_pos k)
    (Nat.pow_lt_pow_right (by norm_num) (Nat.lt_succ_self k))

/-! ## The collision-free name search -/

/-- The candidate names tried by the collision loops:
`f"{pre}{i}{post}"` (with `pre` ending in `_` or `_restored_`). -/
def famName (pre post : String) (i : Nat) : String := pre ++ Nat.repr i ++ post

theorem strLength_append (a b : String) : (a ++ b).length = a.length + b.length := by
  cases a with
  | mk da =>
    cases b with
    | mk db => simp [String.length, String.append]

theorem famName_length (pre post : String) (i : Nat) :
    (famName pre post i).length = pre.length + (Nat.repr i).length + post.length := by
  simp [famName, strLength_append]

theorem famName_ne_empty (pre post : String) (i : Nat) : famName pre post i ≠ "" := by
  intro h
  have h2 := congrArg String.length h
  rw [famName_length] at h2
  have h3 := repr_length_pos i
  have h0 : ("" : String).length = 0 := rfl
  omega

theorem famName_pow10_inj (pre post : String) :
    Function.Injective (fun k : Nat => famName pre post (10 ^ k)) := by
  intro a b hab
  have := congrArg String.length hab
  simp only [famName_length, repr_pow10_length] at this
  omega

/-- Any finite list of taken names misses some candidate `famName (i+1)`. -/
theorem exists_free_name (taken : List String) (pre post : String) :
    ∃ i, famName pre post (i + 1) ∉ taken := by
  by_contra hc
  push_neg at hc
  have hnd : ((List.range (taken.length + 1)).map
      (fun k => famName pre post (10 ^ k))).Nodup :=
    (List.nodup_range _).map (famName_pow10_inj pre post)
  have hsub : ((List.range (taken.length + 1)).map
      (fun k => famName pre post (10 ^ k))) ⊆ taken := by
    intro x hx
    simp only [List.mem_map, List.mem_range] at hx
    obtain ⟨k, _, rfl⟩ := hx
    have h1 : 1 ≤ 10 ^ k := Nat.pow_pos (by norm_num)
    have := hc (10 ^ k - 1)
    rwa [Nat.sub_add_cancel h1] at this
  have hle := (hnd.subperm hsub).length_le
  simp at hle

/-- Final name components of every filesystem entry; a superset of the
names present in any fixed directory. -/
def candidateNames (st : EngineState) : List String :=
  (st.dirs ++ st.files.map Prod.fst).filterMap (fun p => p.getLast?)

theorem fileContent_isSome_mem (fs : List (List String × String)) (p : List String)
    (h : (fileContent fs p).isSome) : p ∈ fs.map Prod.fst := by
  induction fs with
  | nil => simp [fileContent] at h
  | cons kv rest ih =>
    by_cases hk : kv.1 = p
    · simp [hk]
    · simp only [fileContent, hk] at h
      · simp only [List.map_cons, List.mem_cons]
        right
        exact ih h

theorem pexists_name_mem (st : EngineState) (d : List String) (n : String)
    (h : pexistsB st (d ++ [n]) = true) : n ∈ candidateNames st := by
  have hmem : (d ++ [n]) ∈ st.dirs ++ st.files.map Prod.fst := by
    rcases Bool.or_eq_true _ _ |>.mp h with hd | hf
    · exact List.mem_append_left _ (by simpa [isDirB] using hd)
    · exact List.mem_append_right _
        (fileContent_isSome_mem _ _ (by simpa [isFileB] using hf))
  exact List.mem_filterMap.mpr ⟨d ++ [n], hmem, by simp [List.getLast?_concat]⟩

/-- The collision loop always reaches a name that does not exist in the
directory `d`. -/
theorem exists_free_pexists (st : EngineState) (d : List String) (pre post : String) :
    ∃ i, pexistsB st (joinSeg d (famName pre post (i + 1))) = false := by
  obtain ⟨i, hi⟩ := exists_free_name (candidateNames st) pre post
  refine ⟨i, ?_⟩
  rw [joinSeg, if_neg (famName_ne_empty pre post (i + 1))]
  cases hb : pexistsB st (d ++ [famName pre post (i + 1)]) with
  | false => rfl
  | true => exact absurd (pexists_name_mem st d _ hb) hi

/-- The first index `i ≥ 1` (increasing) whose candidate name is free in
directory `d`: the exit index of the `while True` loops of
`_move_to_trash` and `_restore_from_trash`. -/
def freshIdx (st : EngineState) (d : List String) (pre post : String) : Nat :=
  Nat.find (exists_free_pexists st d pre post) + 1

theorem freshIdx_free (st : EngineState) (d : List String) (pre post : String) :
    pexistsB st (joinSeg d (famName pre post (freshIdx st d pre post))) = false :=
  Nat.find_spec (exists_free_pexists st d pre post)

theorem freshIdx_min (st : EngineState) (d : List String) (pre post : String)
    (m : Nat) (hm : 0 < m) (hlt : m < freshIdx st d pre post) :
    pexistsB st (joinSeg d (famName pre post m)) = true := by
  obtain ⟨j, rfl⟩ : ∃ j, m = j + 1 := ⟨m - 1, by omega⟩
  have hj : j < Nat.find (exists_free_pexists st d pre post) := by
    simp only [freshIdx] at hlt
    omega
  have := Nat.find_min (exists_free_pexists st d pre post) hj
  cases hb : pexistsB st (joinSeg d (famName pre post (j + 1))) with
  | false => exact absurd hb this
  | true => rfl

theorem freshIdx_pos (st : EngineState) (d : List String) (pre post : String) :
    0 < freshIdx st d pre post := Nat.succ_pos _

/-! ## Trash store -/

/-- Placeholder for environment-specific OS exception text interpolated
into diagnostic messages (`f"...: {e}"`). -/
def OS_ERROR : String := "[OS error]"

/-- The final name `_move_to_trash` stores under: the target's own name if
free in the trash, else `f"{stem}_{i}{suffix}"` for the first free `i ≥ 1`.
`st` is the state after `trash.mkdir(exist_ok=True)`. -/
def trashDestName (st : EngineState) (name : String) : String :=
  let dest0 := joinSeg TRASH name
  if pexistsB st dest0 then
    let dn := dest0.getLastD ""
    famName (pyStem dn ++ "_") (pySuffix dn)
      (freshIdx st TRASH (pyStem dn ++ "_") (pySuffix dn))
  else name

/-- `_move_to_trash` from `app.py`.  `.error ()` models the uncaught
`FileExistsError` when `.trash` exists as a regular file (it propagates to
the caller's handler); otherwise the entry is moved under a collision-free
name and a diagnostic string is returned. -/
def _move_to_trash (st : EngineState) (target : List String) :
    EngineState × Except Unit String :=
  if isFileB st TRASH then (st, .error ())
  else
    let st1 := { st with dirs := insertPath st.dirs TRASH }
    let name := target.getLastD ""
    let destName := trashDestName st1 name
    let dest := joinSeg TRASH destName
    let st2 := movePath st1 target dest
    (st2, .ok ("Moved to trash: " ++ name ++ " -> " ++ dest.getLastD ""))

/-- `_restore_from_trash` from `app.py`: move `trash/<name>` into
`targetDir`, avoiding collisions with `f"{stem}_restored_{i}{suffix}"`;
when the entry is absent the diagnostic `"<name>: not found in trash"` is
returned (and the state is unchanged). -/
def _restore_from_trash (st : EngineState) (name : String)
    (targetDir : List String) : EngineState × String :=
  let src := normSegs (pyJoin TRASH name)
  if pexistsB st src = false then (st, name ++ ": not found in trash")
  else
    let dest0 := pyJoin targetDir name
    let dn := dest0.getLastD ""
    let dest :=
      if pexistsB st (normSegs dest0) then
        joinSeg targetDir
          (famName (pyStem dn ++ "_restored_") (pySuffix dn)
            (freshIdx st targetDir (pyStem dn ++ "_restored_") (pySuffix dn)))
      else normSegs dest0
    (movePath st src dest, "Restored: " ++ name ++ " -> " ++ dest.getLastD "")

/-! ## Results, oracles, tokenizer -/

/-- The universal result shape `{ok, stdout, stderr, rc?}`. -/
structure CommandResult where
  ok : Bool
  stdout : String := ""
  stderr : String := ""
  rc : Option Int := none
deriving DecidableEq, Repr

/-- A failing result carrying only `stderr`. -/
def errRes (msg : String) : CommandResult := { ok := false, stderr := msg }

/-- A successful result carrying only `stdout`. -/
def okRes (out : String) : CommandResult := { ok := true, stdout := out }

/-- Oracles for the engine's external collaborators: `psutil` stats text,
the native-process supervisor (argv and working directory to a raw result),
the Python `re` engine (pattern validity, and search with an ignore-case
flag), file hashing, and `stat` metadata rendering. -/
structure Env where
  stats : String
  spawn : List String → List String → CommandResult
  rxValid : String → Bool
  rxMatch : Bool → String → String → Bool
  hashHex : String → String → String
  statOut : List String → String

/-- Lexer modes of POSIX `shlex`: outside quotes, in single quotes, in
double quotes, after a backslash (outside / inside double quotes). -/
inductive LexMode | norm | sq | dq | escN | escD
deriving DecidableEq, Repr

/-- POSIX `shlex.split` (comments disabled, whitespace split): `started`
records whether a token is open (so `''` yields an empty token), `cur` the
current token's characters reversed, `acc` finished tokens reversed.
Unbalanced quotes and a trailing escape raise `ValueError`. -/
def shlexCore : List Char → LexMode → Bool → List Char → List (List Char) →
    Except String (List String)
  | [], .norm, started, cur, acc =>
    let acc' := if started then cur.reverse :: acc else acc
    .ok (acc'.reverse.map fun l => ⟨l⟩)
  | [], .sq, _, _, _ => .error "No closing quotation"
  | [], .dq, _, _, _ => .error "No closing quotation"
  | [], .escN, _, _, _ => .error "No escaped character"
  | [], .escD, _, _, _ => .error "No escaped character"
  | c :: cs, .norm, started, cur, acc =>
    if c = ' ' ∨ c = '\t' ∨ c = '\n' ∨ c = '\r' then
      if started then shlexCore cs .norm false [] (cur.reverse :: acc)
      else shlexCore cs .norm false [] acc
    else if c = '\'' then shlexCore cs .sq true cur acc
    else if c = '"' then shlexCore cs .dq true cur acc
    else if c = '\\' then shlexCore cs .escN true cur acc
    else shlexCore cs .norm true (c :: cur) acc
  | c :: cs, .sq, started, cur, acc =>
    if c = '\'' then shlexCore cs .norm started cur acc
    else shlexCore cs .sq started (c :: cur) acc
  | c :: cs, .dq, started, cur, acc =>
    if c = '"' then shlexCore cs .norm started cur acc
    else if c = '\\' then shlexCore cs .escD started cur acc
    else shlexCore cs .dq started (c :: cur) acc
  | c :: cs, .escN, started, cur, acc => shlexCore cs .norm started (c :: cur) acc
  | c :: cs, .escD, started, cur, acc =>
    if c = '\\' ∨ c = '"' then shlexCore cs .dq started (c :: cur) acc
    else shlexCore cs .dq started (c :: '\\' :: cur) acc

/-- `shlex.split(cmd, posix=True)`. -/
def shlexSplit (cmd : String) : Except String (List String) :=
  shlexCore cmd.data .norm false [] []

instance {ε α : Type} [DecidableEq ε] [DecidableEq α] : DecidableEq (Except ε α) :=
  fun x y =>
  match x, y with
  | .ok a, .ok b =>
    if h : a = b then .isTrue (by rw [h])
    else .isFalse (by intro hc; injection hc; contradiction)
  | .error a, .error b =>
    if h : a = b then .isTrue (by rw [h])
    else .isFalse (by intro hc; injection hc; contradiction)
  | .ok _, .error _ => .isFalse (by intro hc; injection hc)
  | .error _, .ok _ => .isFalse (by intro hc; injection hc)

example : shlexSplit "" = .ok [] := by decide
example : shlexSplit "   " = .ok [] := by decide
example : shlexSplit "rm -r 'a b'" = .ok ["rm", "-r", "a b"] := by decide
example : shlexSplit "''" = .ok [""] := by decide
example : shlexSplit "'abc" = .error "No closing quotation" := by decide

/-! ## Built-in command branches -/

/-- The allow-set of verbs (`WHITELIST` in `app.py`). -/
def WHITELIST : List String :=
  ["ls", "dir", "pwd", "cat", "type", "read", "echo", "mkdir", "rmdir", "touch",
   "stat", "whoami", "uname", "df", "du", "ps", "stats", "help",
   "cd", "write", "append", "rm", "mv", "cp", "restore", "empty-trash",
   "head", "tail", "grep", "find", "tree", "wc", "md5", "sha256"]

/-- `sorted(WHITELIST)` (ASCII lexicographic). -/
def WHITELIST_SORTED : List String :=
  ["append", "cat", "cd", "cp", "df", "dir", "du", "echo", "empty-trash",
   "find", "grep", "head", "help", "ls", "md5", "mkdir", "mv", "ps", "pwd",
   "read", "restore", "rm", "rmdir", "sha256", "stat", "stats", "tail",
   "touch", "tree", "type", "uname", "wc", "whoami", "write"]

def MAX_OUTPUT_CHARS : Nat := 20000

/-- Python `int(...)` on a token (sign and ASCII digits). -/
def pyIntParse (s : String) : Option Int :=
  let digitsVal : List Char → Option Nat := fun ds =>
    if ds ≠ [] ∧ ds.all Char.isDigit then
      some (ds.foldl (fun a c => a * 10 + (c.toNat - 48)) 0)
    else none
  match s.data with
  | '-' :: ds => (digitsVal ds).map (fun n => -(n : Int))
  | '+' :: ds => (digitsVal ds).map (fun n => (n : Int))
  | ds => (digitsVal ds).map (fun n => (n : Int))

/-- The lines of a text file as Python file iteration plus `rstrip("\n")`
produces them (also `str.splitlines` for `\n`-separated text). -/
def fileLines (content : String) : List String :=
  let ls := (splitChar '\n' content.data).map (fun l => (⟨l⟩ : String))
  if ls.getLastD "" = "" then ls.dropLast else ls

/-- Python slice `l[:n]` for an `int` bound. -/
def pyHeadSlice (l : List String) (n : Int) : List String :=
  if n ≥ 0 then l.take n.toNat else l.take (l.length - (-n).toNat)

/-- Python slice `l[-n:]` for an `int` `n` (note `l[-0:]` is all of `l`). -/
def pyTailSlice (l : List String) (n : Int) : List String :=
  if n > 0 then l.drop (l.length - min n.toNat l.length) else l.drop (-n).toNat

def helpCmd (st : EngineState) : EngineState × CommandResult :=
  (st, okRes ("Allowed commands: " ++ strJoin ", " WHITELIST_SORTED))

def statsCmd (env : Env) (st : EngineState) : EngineState × CommandResult :=
  (st, okRes env.stats)

def cdCmd (st : EngineState) (rest : List String) : EngineState × CommandResult :=
  let target := rest.headD "."
  let newp := safe_path target st.cwd
  if pexistsB st newp && isDirB st newp then
    ({ st with cwd := newp }, okRes (renderPath newp))
  else (st, errRes ("Directory not found: " ++ renderPath newp))

def pwdCmd (st : EngineState) : EngineState × CommandResult :=
  (st, okRes (renderPath st.cwd))

def statCmd (env : Env) (st : EngineState) (rest : List String) :
    EngineState × CommandResult :=
  match rest with
  | [] => (st, errRes "stat requires a filename: stat file.txt")
  | a :: _ =>
    let target := safe_path a st.cwd
    if pexistsB st target = false then (st, errRes ("File not found: " ++ a))
    else (st, okRes (env.statOut target))

def readCmd (st : EngineState) (rest : List String) : EngineState × CommandResult :=
  match rest with
  | [] => (st, errRes "read requires a filename")
  | a :: _ =>
    let target := safe_path a st.cwd
    if !pexistsB st target || !isFileB st target then
      (st, errRes ("File not found: " ++ target.getLastD ""))
    else (st, okRes ((fileContent st.files target).getD ""))

/-- `target.parent.mkdir(parents=True, exist_ok=True)` followed by writing
`content` at `target` (overwriting for `write`, appending for `append`):
fails when an ancestor exists as a file, or when the target itself is a
directory; created ancestor directories survive a later write failure. -/
def doWrite (st : EngineState) (target : List String) (content : String)
    (okMsg failPre : String) : EngineState × CommandResult :=
  if parentBlocked st target then (st, errRes (failPre ++ OS_ERROR))
  else
    let st1 := { st with dirs := addParents st.dirs target }
    if isDirB st target then (st1, errRes (failPre ++ OS_ERROR))
    else ({ st1 with files := setFile st1.files target content }, okRes okMsg)

def writeCmd (st : EngineState) (rest : List String) : EngineState × CommandResult :=
  match rest with
  | f :: c0 :: cs =>
    let content := strJoin " " (c0 :: cs)
    let target := safe_path f st.cwd
    doWrite st target content ("Wrote " ++ target.getLastD "") "Write failed: "
  | _ => (st, errRes "write requires a filename and text: write filename Hello")

def appendCmd (st : EngineState) (rest : List String) : EngineState × CommandResult :=
  match rest with
  | f :: c0 :: cs =>
    let content := strJoin " " (c0 :: cs)
    let target := safe_path f st.cwd
    doWrite st target ((fileContent st.files target).getD "" ++ content)
      ("Appended to " ++ target.getLastD "") "Append failed: "
  | _ => (st, errRes "append requires a filename and text")

/-- Flag collection of the `rm` loop over `parts[1:]`:
recursive, permanent, confirm, targets (in order). -/
def parseRmFlags (toks : List String) : Bool × Bool × Bool × List String :=
  toks.foldl
    (fun acc tok =>
      if tok = "-r" ∨ tok = "-R" ∨ tok = "--recursive" then (true, acc.2.1, acc.2.2.1, acc.2.2.2)
      else if tok = "--permanent" ∨ tok = "--perma" then (acc.1, true, acc.2.2.1, acc.2.2.2)
      else if tok = "--yes-i-know" then (acc.1, acc.2.1, true, acc.2.2.2)
      else (acc.1, acc.2.1, acc.2.2.1, acc.2.2.2 ++ [tok]))
    (false, false, false, [])

/-- The per-target loop of `rm`: collects diagnostic lines, moves targets
to trash or deletes them, and returns early with a failure when a permanent
delete lacks confirmation. -/
def rmLoop (recursive permanent confirm : Bool) :
    EngineState → List String → List String → EngineState × CommandResult
  | st, [], acc => (st, okRes (strJoin "\n" acc.reverse))
  | st, t :: ts, acc =>
    let tgt := safe_path t st.cwd
    if pexistsB st tgt = false then
      rmLoop recursive permanent confirm st ts ((t ++ ": not found") :: acc)
    else if isDirB st tgt && !recursive && !permanent then
      rmLoop recursive permanent confirm st ts
        ((t ++ ": is a directory (use -r or --permanent --yes-i-know)") :: acc)
    else if !permanent then
      match _move_to_trash st tgt with
      | (st', .ok msg) => rmLoop recursive permanent confirm st' ts (msg :: acc)
      | (st', .error _) =>
        rmLoop recursive permanent confirm st' ts
          ((t ++ ": failed to move to trash: " ++ OS_ERROR) :: acc)
    else if !confirm then
      (st, errRes "Permanent delete requires --yes-i-know flag alongside --permanent")
    else
      rmLoop recursive permanent confirm (deletePath st tgt) ts
        (("Deleted permanently: " ++ t) :: acc)

def rmCmd (st : EngineState) (rest : List String) : EngineState × CommandResult :=
  let flags := parseRmFlags rest
  if flags.2.2.2 = [] then
    (st, errRes "rm requires at least one target filename or directory")
  else rmLoop flags.1 flags.2.1 flags.2.2.1 st flags.2.2.2 []

/-- `_safe_mv`: create the destination's parents, move into an existing
directory destination under the source's own name, else rename. -/
def _safe_mv (st : EngineState) (src dest : List String) : EngineState × String :=
  if parentBlocked st dest then (st, "Move failed: " ++ OS_ERROR)
  else
    let st1 := { st with dirs := addParents st.dirs dest }
    let final := if pexistsB st1 dest && isDirB st1 dest then dest ++ [src.getLastD ""] else dest
    (movePath st1 src final, "Moved: " ++ src.getLastD "" ++ " -> " ++ renderPath final)

def mvCmd (st : EngineState) (rest : List String) : EngineState × CommandResult :=
  match rest with
  | s :: d :: _ =>
    let src := safe_path s st.cwd
    let dest := safe_path d st.cwd
    if pexistsB st src = false then (st, errRes ("Source not found: " ++ s))
    else
      let r := _safe_mv st src dest
      (r.1, okRes r.2)
  | _ => (st, errRes "mv requires source and destination: mv src dest")

/-- Copy the subtree at `src` to `dst` (`shutil.copytree`). -/
def copyTree (st : EngineState) (src dst : List String) : EngineState :=
  { st with
    files := st.files ++ st.files.filterMap
      (fun kv => if src.isPrefixOf kv.1 then some (dst ++ kv.1.drop src.length, kv.2) else none)
    dirs := st.dirs ++ st.dirs.filterMap
      (fun d => if src.isPrefixOf d then some (dst ++ d.drop src.length) else none) }

/-- `_safe_cp`: directory copies need `-r` and refuse an existing
destination; file copies create parents and pick the destination name
according to whether `dest` is an existing directory. -/
def _safe_cp (st : EngineState) (src dest : List String) (recursive : Bool) :
    EngineState × String :=
  if isDirB st src then
    if !recursive then (st, "Source is a directory; use cp -r to copy directories")
    else
      let final := if pexistsB st dest && isDirB st dest then dest ++ [src.getLastD ""] else dest
      if pexistsB st final then (st, "Destination already exists: " ++ renderPath final)
      else (copyTree st src final, "Directory copied: " ++ src.getLastD "" ++ " -> " ++ renderPath final)
  else
    if parentBlocked st dest then (st, "Copy failed: " ++ OS_ERROR)
    else
      let st1 := { st with dirs := addParents st.dirs dest }
      let final := if isDirB st dest then dest ++ [src.getLastD ""] else dest
      if isDirB st1 final then (st1, "Copy failed: " ++ OS_ERROR)
      else
        ({ st1 with files := setFile st1.files final ((fileContent st.files src).getD "") },
          "Copied: " ++ src.getLastD "" ++ " -> " ++ renderPath final)

def cpCmd (st : EngineState) (rest : List String) : EngineState × CommandResult :=
  let recursive := decide ("-r" ∈ rest)
  let args := rest.filter (fun a => a ≠ "-r")
  match args with
  | a0 :: a1 :: _ =>
    let src := safe_path a0 st.cwd
    let dest := safe_path a1 st.cwd
    if pexistsB st src = false then (st, errRes ("Source not found: " ++ a0))
    else
      let r := _safe_cp st src dest recursive
      (r.1, okRes r.2)
  | _ => (st, errRes "cp requires source and destination (use -r for directories)")

def restoreCmd (st : EngineState) (rest : List String) : EngineState × CommandResult :=
  match rest with
  | [] => (st, errRes "restore requires a filename present in .trash/")
  | n :: _ =>
    let r := _restore_from_trash st n st.cwd
    (r.1, okRes r.2)

def emptyTrashCmd (st : EngineState) (rest : List String) : EngineState × CommandResult :=
  if rest.head? ≠ some "--yes-i-know" then
    (st, errRes "empty-trash is destructive. To confirm run: empty-trash --yes-i-know")
  else if pexistsB st TRASH = false then (st, okRes "Trash is already empty")
  else
    ({ st with
        files := st.files.filter (fun kv => ¬ (TRASH.isPrefixOf kv.1 ∧ kv.1 ≠ TRASH))
        dirs := st.dirs.filter (fun d => ¬ (TRASH.isPrefixOf d ∧ d ≠ TRASH)) },
      okRes "Trash emptied")

/-- Shared `[-n N] filename` handling of `head` and `tail`. -/
def headTailCmd (st : EngineState) (rest : List String) (usage : String)
    (slice : List String → Int → List String) : EngineState × CommandResult :=
  let parsed : Option (Int × List String) :=
    match rest with
    | "-n" :: nstr :: rest2 =>
      match pyIntParse nstr with
      | some k => some (k, rest2)
      | none => none
    | args => some (10, args)
  match parsed with
  | none => (st, errRes "Invalid number for -n")
  | some (n, args) =>
    match args with
    | [] => (st, errRes usage)
    | a :: _ =>
      let target := safe_path a st.cwd
      if !pexistsB st target || !isFileB st target then
        (st, errRes ("File not found: " ++ a))
      else
        (st, okRes (strJoin "\n" (slice (fileLines ((fileContent st.files target).getD "")) n)))

def headCmd (st : EngineState) (rest : List String) : EngineState × CommandResult :=
  headTailCmd st rest "head requires a filename" pyHeadSlice

def tailCmd (st : EngineState) (rest : List String) : EngineState × CommandResult :=
  headTailCmd st rest "tail requires a filename" pyTailSlice

/-- The flag scan of `grep`: consume leading `-` tokens, record `-i` and
`-E`, ignore other flags. -/
def grepParse : List String → Bool → Bool → Bool × Bool × List String
  | [], ic, rx => (ic, rx, [])
  | t :: ts, ic, rx =>
    if headDash t then grepParse ts (ic || (t = "-i")) (rx || (t = "-E"))
    else (ic, rx, t :: ts)

/-- Literal substring containment, lowercased on both sides for `-i`. -/
def substrMatch (ic : Bool) (pat hay : String) : Bool :=
  if ic then subListB (pat.data.map charLower) (hay.data.map charLower)
  else subListB pat.data hay.data

/-- Per-line match of `_grep_in_file`: regex when `-E` and the pattern
compiles, literal substring otherwise (also as the fallback for an invalid
pattern). -/
def lineMatch (env : Env) (ic rx : Bool) (pat hay : String) : Bool :=
  if rx then
    if env.rxValid pat then env.rxMatch ic pat hay else substrMatch ic pat hay
  else substrMatch ic pat hay

/-- Matched lines rendered as `"<1-based line#>:<line>"`. -/
def grepMatches (env : Env) (ic rx : Bool) (pat : String) (ls : List String) :
    List String :=
  ls.enum.filterMap
    (fun p => if lineMatch env ic rx pat p.2 then some (Nat.repr (p.1 + 1) ++ ":" ++ p.2) else none)

def grepCmd (env : Env) (st : EngineState) (rest : List String) :
    EngineState × CommandResult :=
  let parsed := grepParse rest false false
  match parsed.2.2 with
  | pat :: fname :: _ =>
    let target := safe_path fname st.cwd
    if !pexistsB st target || !isFileB st target then
      (st, errRes ("File not found: " ++ fname))
    else
      (st, okRes (strJoin "\n"
        (grepMatches env parsed.1 parsed.2.1 pat
          (fileLines ((fileContent st.files target).getD "")))))
  | _ => (st, errRes "usage: grep [-i] [-E] pattern filename")

/-- Option scan of `find` for `-maxdepth N` and `-name substr`. -/
def findOpts : List String → Int → Option String → Int × Option String
  | [], md, np => (md, np)
  | "-maxdepth" :: v :: ts, md, np => findOpts ts ((pyIntParse v).getD md) np
  | "-name" :: v :: ts, md, _ => findOpts ts md (some v)
  | _ :: ts, md, np => findOpts ts md np

/-- Strip the leading `str(ROOT) + "/"` from a rendered path
(`.replace(str(ROOT) + os.sep, "")` on paths under the root). -/
def stripRoot (k : List String) : String :=
  let s := renderPath k
  let pre := renderPath ROOT ++ "/"
  if strIsPre pre s then ⟨s.data.drop pre.data.length⟩ else s

def findCmd (st : EngineState) (rest : List String) : EngineState × CommandResult :=
  let args := if rest.isEmpty then ["."] else rest
  let startAndRest : String × List String :=
    match args with
    | a :: as => if headDash a then (".", args) else (a, as)
    | [] => (".", [])
  let opts := findOpts startAndRest.2 4 none
  let startPath := safe_path startAndRest.1 st.cwd
  let out := (st.files.map Prod.fst).filterMap fun k =>
    if startPath.isPrefixOf k &&
        decide (((k.length - 1 - startPath.length : Nat) : Int) ≤ opts.1) &&
        (match opts.2 with
         | some pat => subListB pat.data (k.getLastD "").data
         | none => true) then
      some (stripRoot k)
    else none
  (st, okRes (strJoin "\n" out))

/-- `-L depth` scan of `tree` (default 3; parse failures keep the default). -/
def treeDepthArg : List String → Int
  | [] => 3
  | "-L" :: v :: _ => (pyIntParse v).getD 3
  | _ :: ts => treeDepthArg ts

/-- Order of `sorted(p.iterdir(), key=lambda x: (not x.is_dir(), x.name.lower()))`:
directories first, then case-insensitive by name. -/
def treeEntryLe (a b : String × Bool) : Bool :=
  let ra : Nat := if a.2 then 0 else 1
  let rb : Nat := if b.2 then 0 else 1
  if ra ≠ rb then decide (ra < rb) else decide (strLower a.1 ≤ strLower b.1)

def insertSorted (le : String × Bool → String × Bool → Bool) (x : String × Bool) :
    List (String × Bool) → List (String × Bool)
  | [] => [x]
  | y :: ys => if le x y then x :: y :: ys else y :: insertSorted le x ys

def sortEntries (l : List (String × Bool)) : List (String × Bool) :=
  l.foldr (insertSorted treeEntryLe) []

/-- The children of directory `p` as `(name, is_dir)` pairs, sorted. -/
def childEntries (st : EngineState) (p : List String) : List (String × Bool) :=
  sortEntries
    ((st.dirs.filterMap fun d =>
        if d.length = p.length + 1 ∧ p.isPrefixOf d then (d.getLast?).map (·, true) else none) ++
     (st.files.filterMap fun kv =>
        if kv.1.length = p.length + 1 ∧ p.isPrefixOf kv.1 then (kv.1.getLast?).map (·, false)
        else none))

def strRepeat (s : String) (n : Nat) : String :=
  (List.range n).foldl (fun a _ => a ++ s) ""

/-- `_tree_listing`'s recursive walk; recursion is bounded by the depth
cut-off, provided here as fuel. -/
def treeWalk (st : EngineState) (maxd : Int) : Nat → List String → Nat → List String
  | 0, _, _ => []
  | fuel + 1, p, depth =>
    if (depth : Int) > maxd then []
    else
      (childEntries st p).flatMap fun e =>
        (strRepeat "  " depth ++ (if depth ≠ 0 then "└─ " else "") ++ e.1 ++
            (if e.2 then "/" else "")) ::
          (if e.2 then treeWalk st maxd fuel (p ++ [e.1]) (depth + 1) else [])

def treeCmd (st : EngineState) (rest : List String) : EngineState × CommandResult :=
  let start :=
    match rest with
    | a :: _ => if headDash a then st.cwd else safe_path a st.cwd
    | [] => st.cwd
  let maxd := treeDepthArg rest
  (st, okRes (strJoin "\n" (treeWalk st maxd (maxd.toNat + 2) (normSegs start) 0)))

def hashCmd (env : Env) (st : EngineState) (algo : String) (rest : List String) :
    EngineState × CommandResult :=
  match rest with
  | [] => (st, errRes (algo ++ " requires a filename"))
  | a :: _ =>
    let target := safe_path a st.cwd
    if !pexistsB st target || !isFileB st target then
      (st, errRes ("File not found: " ++ a))
    else
      (st, okRes (env.hashHex algo ((fileContent st.files target).getD "") ++ "  " ++
        target.getLastD ""))

/-- Word count of one line, Python `len(l.split())`. -/
def countWords (s : String) : Nat :=
  (s.data.foldl
    (fun acc c =>
      if c.isWhitespace then (acc.1, false)
      else if acc.2 then acc else (acc.1 + 1, true))
    ((0 : Nat), false)).1

def wcCmd (st : EngineState) (rest : List String) : EngineState × CommandResult :=
  let parsed : Option (Option String × String) :=
    match rest with
    | [f] => some (none, f)
    | [m, f] => some (some m, f)
    | _ => none
  match parsed with
  | none => (st, errRes "usage: wc [-l|-w|-c] filename")
  | some (mode, f) =>
    let target := safe_path f st.cwd
    if !pexistsB st target || !isFileB st target then
      (st, errRes ("File not found: " ++ f))
    else
      let content := (fileContent st.files target).getD ""
      let ls := fileLines content
      let lineCount := ls.length
      let wordCount := ls.foldl (fun a l => a + countWords l) 0
      let charCount := content.length
      if mode = some "-l" then (st, okRes (Nat.repr lineCount))
      else if mode = some "-w" then (st, okRes (Nat.repr wordCount))
      else if mode = some "-c" then (st, okRes (Nat.repr charCount))
      else
        (st, okRes (Nat.repr lineCount ++ " " ++ Nat.repr wordCount ++ " " ++
          Nat.repr charCount ++ " " ++ target.getLastD ""))

/-! ## Native-process fallback -/

/-- Per-token translation of the fallback path: flags pass through; tokens
containing a separator, dot or tilde, or any non-alphabetic nonempty token,
are replaced by their confined absolute form. -/
def fallbackArg (st : EngineState) (p : String) : String :=
  if headDash p then p
  else if p.data.any (fun c => c = '/' ∨ c = '\\' ∨ c = '.' ∨ c = '~') ||
      (!isAlphaStr p && p.length > 0) then
    renderPath (safe_path p st.cwd)
  else p

/-- Truncation of the fallback result (`app.py`, end of
`run_whitelisted_command`): stdout and stderr are independently cut to
`MAX_OUTPUT_CHARS` characters with a trailing marker. -/
def applyTruncation (r : CommandResult) : CommandResult :=
  { r with
    stdout :=
      if r.stdout.length > MAX_OUTPUT_CHARS then
        (⟨r.stdout.data.take MAX_OUTPUT_CHARS⟩ : String) ++ "\n[truncated output]"
      else r.stdout
    stderr :=
      if r.stderr.length > MAX_OUTPUT_CHARS then
        (⟨r.stderr.data.take MAX_OUTPUT_CHARS⟩ : String) ++ "\n[truncated stderr]"
      else r.stderr }

/-- The fallback branch: translate every token, spawn, truncate.  (On the
modelled POSIX host `windows_translate` is not applied.) -/
def fallbackCmd (env : Env) (st : EngineState) (parts : List String) :
    EngineState × CommandResult :=
  (st, applyTruncation (env.spawn (parts.map (fallbackArg st)) st.cwd))

/-! ## The interpreter -/

/-- `run_whitelisted_command` after tokenization: empty-command check,
allow-set check, the chain of built-in branches, then the native-process
fallback. -/
def run_parts (env : Env) (st : EngineState) (parts : List String) :
    EngineState × CommandResult :=
  match parts with
  | [] => (st, errRes "Empty command.")
  | p0 :: rest =>
    let base := strLower p0
    if base ∈ WHITELIST then
      if base = "help" then helpCmd st
      else if base = "ps" ∨ base = "stats" then statsCmd env st
      else if base = "cd" then cdCmd st rest
      else if base = "pwd" then pwdCmd st
      else if base = "stat" then statCmd env st rest
      else if base = "read" then readCmd st rest
      else if base = "write" then writeCmd st rest
      else if base = "append" then appendCmd st rest
      else if base = "rm" then rmCmd st rest
      else if base = "mv" then mvCmd st rest
      else if base = "cp" then cpCmd st rest
      else if base = "restore" then restoreCmd st rest
      else if base = "empty-trash" then emptyTrashCmd st rest
      else if base = "head" then headCmd st rest
      else if base = "tail" then tailCmd st rest
      else if base = "grep" then grepCmd env st rest
      else if base = "find" then findCmd st rest
      else if base = "tree" then treeCmd st rest
      else if base = "md5" ∨ base = "sha256" then hashCmd env st base rest
      else if base = "wc" then wcCmd st rest
      else fallbackCmd env st parts
    else (st, errRes ("Command '" ++ base ++ "' not allowed."))

/-- `run_whitelisted_command` from `app.py`: tokenize (a `shlex`
`ValueError` is caught by the surrounding handler and surfaced as
`"Error: ..."`), then dispatch. -/
def run_whitelisted_command (env : Env) (st : EngineState) (cmd : String) :
    EngineState × CommandResult :=
  match shlexSplit cmd with
  | .error e => (st, errRes ("Error: " ++ e))
  | .ok parts => run_parts env st parts

/-- A fixed oracle assignment used by the concrete examples and
counterexamples: the external collaborators' behaviour at the evaluated
inputs is irrelevant to (or fixed by) the properties stated. -/
def env0 : Env :=
  { stats := ""
    spawn := fun _ _ => { ok := false }
    rxValid := fun _ => false
    rxMatch := fun _ _ _ => false
    hashHex := fun _ _ => ""
    statOut := fun _ => "" }

/-- A small concrete state: the sandbox root containing directory `a` and
file `f.txt`. -/
def st0 : EngineState :=
  { cwd := ROOT
    files := [(ROOT ++ ["f.txt"], "hello world")]
    dirs := [ROOT, ROOT ++ ["a"]] }

example : (run_parts env0 st0 ["pwd"]).2 = okRes "/srv/app/sandbox" := by decide
example : (run_parts env0 st0 ["cd", "a"]).2 = okRes "/srv/app/sandbox/a" := by decide
example : (run_parts env0 st0 ["cd", "a"]).1.cwd = ROOT ++ ["a"] := by decide
example : (run_parts env0 st0 ["cd", "nope"]).2 =
    errRes "Directory not found: /srv/app/sandbox/nope" := by decide
example : (run_parts env0 st0 ["read", "f.txt"]).2 = okRes "hello world" := by decide
example : (run_parts env0 st0 ["hack", "now"]).2 =
    errRes "Command 'hack' not allowed." := by decide
example : (run_parts env0 st0 []).2 = errRes "Empty command." := by decide
example :
    (run_parts env0 ((run_parts env0 st0 ["write", "g.txt", "ab", "cd"]).1)
      ["read", "g.txt"]).2 = okRes "ab cd" := by decide

/-! ## Dispatch lemmas -/

theorem run_parts_cd (env : Env) (st : EngineState) (rest : List String) :
    run_parts env st ("cd" :: rest) = cdCmd st rest := by
  have h : strLower "cd" = "cd" := by decide
  simp [run_parts, h, WHITELIST]

theorem run_parts_pwd (env : Env) (st : EngineState) (rest : List String) :
    run_parts env st ("pwd" :: rest) = pwdCmd st := by
  have h : strLower "pwd" = "pwd" := by decide
  simp [run_parts, h, WHITELIST]

theorem run_parts_read (env : Env) (st : EngineState) (rest : List String) :
    run_parts env st ("read" :: rest) = readCmd st rest := by
  have h : strLower "read" = "read" := by decide
  simp [run_parts, h, WHITELIST]

theorem run_parts_write (env : Env) (st : EngineState) (rest : List String) :
    run_parts env st ("write" :: rest) = writeCmd st rest := by
  have h : strLower "write" = "write" := by decide
  simp [run_parts, h, WHITELIST]

theorem run_parts_rm (env : Env) (st : EngineState) (rest : List String) :
    run_parts env st ("rm" :: rest) = rmCmd st rest := by
  have h : strLower "rm" = "rm" := by decide
  simp [run_parts, h, WHITELIST]

theorem run_parts_restore (env : Env) (st : EngineState) (rest : List String) :
    run_parts env st ("restore" :: rest) = restoreCmd st rest := by
  have h : strLower "restore" = "restore" := by decide
  simp [run_parts, h, WHITELIST]

theorem run_parts_grep (env : Env) (st : EngineState) (rest : List String) :
    run_parts env st ("grep" :: rest) = grepCmd env st rest := by
  have h : strLower "grep" = "grep" := by decide
  simp [run_parts, h, WHITELIST]

theorem run_parts_ls (env : Env) (st : EngineState) (rest : List String) :
    run_parts env st ("ls" :: rest) = fallbackCmd env st ("ls" :: rest) := by
  have h : strLower "ls" = "ls" := by decide
  simp [run_parts, h, WHITELIST]

/-! ## Claim theorems -/

/-- C1: the claim says every `safe_path` result is a descendant of
SandboxRoot, i.e. its string form starts with the canonical SandboxRoot
prefix, explicitly including the input `".."`.  The code violates this:
with the base directory at the sandbox root (the initial WorkingDirectory),
`safe_path("..")` falls through the prefix check into the fallback
`(ROOT / Path("..").name).resolve()`, and since `Path("..").name == ".."`
this resolves to the PARENT of the sandbox root, which does not carry the
SandboxRoot prefix. -/
theorem c1_safe_path_dotdot_escapes :
    safe_path ".." ROOT = ["srv", "app"] ∧
    strIsPre (renderPath ROOT) (renderPath (safe_path ".." ROOT)) = false := by decide

/-- C10: a command string that tokenizes to an empty token sequence
produces `{ok:false, stderr:"Empty command."}` and leaves the engine state
untouched, before any allow-set consultation. -/
theorem c10_empty_command (env : Env) (st : EngineState) (cmd : String)
    (h : shlexSplit cmd = .ok []) :
    run_whitelisted_command env st cmd = (st, errRes "Empty command.") := by
  simp [run_whitelisted_command, h, run_parts]

theorem c10_empty_command_witness :
    shlexSplit "   " = .ok [] ∧
    run_whitelisted_command env0 st0 "   " = (st0, errRes "Empty command.") :=
  ⟨by decide, c10_empty_command env0 st0 "   " (by decide)⟩

/-- C7: a non-empty token sequence whose lowercased first token is outside
the allow-set is rejected with exactly
`"Command '<base>' not allowed."` and the state is unchanged. -/
theorem c7_not_allowed (env : Env) (st : EngineState) (p0 : String)
    (rest : List String) (h : strLower p0 ∉ WHITELIST) :
    run_parts env st (p0 :: rest) =
      (st, errRes ("Command '" ++ strLower p0 ++ "' not allowed.")) := by
  simp [run_parts, h]

theorem c7_not_allowed_witness :
    strLower "hack" ∉ WHITELIST ∧
    run_parts env0 st0 ["hack", "now"] =
      (st0, errRes ("Command '" ++ strLower "hack" ++ "' not allowed.")) :=
  ⟨by decide, c7_not_allowed env0 st0 "hack" ["now"] (by decide)⟩

/-- C3: `cd` resolves its argument against the working directory; when the
resolved path is not an existing directory it reports a NotFound failure
and leaves WorkingDirectory unchanged; when it is, WorkingDirectory becomes
the resolved confined path and a subsequent `pwd` prints exactly it. -/
theorem c3_cd_sets_or_preserves_cwd (env : Env) (st : EngineState)
    (arg : String) (rest : List String) :
    ((pexistsB st (safe_path arg st.cwd) && isDirB st (safe_path arg st.cwd)) = false →
      run_parts env st ("cd" :: arg :: rest) =
        (st, errRes ("Directory not found: " ++ renderPath (safe_path arg st.cwd)))) ∧
    ((pexistsB st (safe_path arg st.cwd) && isDirB st (safe_path arg st.cwd)) = true →
      run_parts env st ("cd" :: arg :: rest) =
        ({ st with cwd := safe_path arg st.cwd },
          okRes (renderPath (safe_path arg st.cwd))) ∧
      (run_parts env { st with cwd := safe_path arg st.cwd } ["pwd"]).2 =
        okRes (renderPath (safe_path arg st.cwd))) := by
  constructor
  · intro h
    rw [run_parts_cd]
    simp [cdCmd, h]
  · intro h
    refine ⟨?_, ?_⟩
    · rw [run_parts_cd]
      simp [cdCmd, h]
    · rw [run_parts_pwd]
      simp [pwdCmd]

theorem c3_cd_witness :
    (pexistsB st0 (safe_path "a" st0.cwd) && isDirB st0 (safe_path "a" st0.cwd)) = true ∧
    run_parts env0 st0 ["cd", "a"] =
      ({ st0 with cwd := safe_path "a" st0.cwd }, okRes (renderPath (safe_path "a" st0.cwd))) ∧
    (run_parts env0 { st0 with cwd := safe_path "a" st0.cwd } ["pwd"]).2 =
      okRes (renderPath (safe_path "a" st0.cwd)) ∧
    (pexistsB st0 (safe_path "nope" st0.cwd) && isDirB st0 (safe_path "nope" st0.cwd)) = false ∧
    run_parts env0 st0 ["cd", "nope"] =
      (st0, errRes ("Directory not found: " ++ renderPath (safe_path "nope" st0.cwd))) :=
  ⟨by decide,
   ((c3_cd_sets_or_preserves_cwd env0 st0 "a" []).2 (by decide)).1,
   ((c3_cd_sets_or_preserves_cwd env0 st0 "a" []).2 (by decide)).2,
   by decide,
   (c3_cd_sets_or_preserves_cwd env0 st0 "nope" []).1 (by decide)⟩

/-- C2 (amended): when the named entry is absent from trash,
`_restore_from_trash` does produce the NotFound diagnostic
`"<name>: not found in trash"` and changes nothing — but the interpreter
wraps it as a SUCCESS result (`ok:true` with the diagnostic in stdout), not
as an `ok:false` failure as the claim states. -/
theorem c2_restore_absent_reports_ok (env : Env) (st : EngineState)
    (name : String) (rest : List String)
    (h : pexistsB st (normSegs (pyJoin TRASH name)) = false) :
    run_parts env st ("restore" :: name :: rest) =
      (st, okRes (name ++ ": not found in trash")) := by
  rw [run_parts_restore]
  simp [restoreCmd, _restore_from_trash, h]

theorem c2_restore_absent_witness :
    pexistsB st0 (normSegs (pyJoin TRASH "ghost.txt")) = false ∧
    run_parts env0 st0 ["restore", "ghost.txt"] =
      (st0, okRes ("ghost.txt" ++ ": not found in trash")) :=
  ⟨by decide, c2_restore_absent_reports_ok env0 st0 "ghost.txt" [] (by decide)⟩

/-- C2 counterexample: `ghost.txt` is absent from trash, yet
`restore ghost.txt` returns `ok:true` — refuting the claim that the
returned CommandResult has `ok:false`. -/
theorem c2_restore_absent_counterexample :
    pexistsB st0 (normSegs (pyJoin TRASH "ghost.txt")) = false ∧
    (run_parts env0 st0 ["restore", "ghost.txt"]).2.ok = true := by decide

/-- The `rm` per-target loop under `--permanent` without `--yes-i-know`:
the first existing target triggers the rejection, and since the permanent
branch skips the move-to-trash branch entirely and rejects before any
delete, the state at that point is still the initial one. -/
theorem rmLoop_perm_noconfirm (r : Bool) (st : EngineState) (ts : List String) :
    ∀ acc, (∃ t ∈ ts, pexistsB st (safe_path t st.cwd) = true) →
      rmLoop r true false st ts acc =
        (st, errRes "Permanent delete requires --yes-i-know flag alongside --permanent") := by
  induction ts with
  | nil =>
    intro acc hex
    simp at hex
  | cons t ts ih =>
    intro acc hex
    by_cases hpe : pexistsB st (safe_path t st.cwd) = true
    · simp [rmLoop, hpe]
    · have hfalse : pexistsB st (safe_path t st.cwd) = false := by
        cases h2 : pexistsB st (safe_path t st.cwd)
        · rfl
        · exact absurd h2 hpe
      obtain ⟨u, hu, hpu⟩ := hex
      rcases List.mem_cons.mp hu with rfl | hmem
      · exact absurd hpu hpe
      · simp only [rmLoop, hfalse, if_pos]
        exact ih _ ⟨u, hmem, hpu⟩

/-- C4: an `rm` with `--permanent` but without `--yes-i-know` that has at
least one existing target is rejected outright with `ok:false`, and the
filesystem state is exactly the initial one (nothing deleted, nothing moved
to trash). -/
theorem c4_rm_permanent_requires_confirmation (env : Env) (st : EngineState)
    (rest : List String)
    (hp : (parseRmFlags rest).2.1 = true)
    (hc : (parseRmFlags rest).2.2.1 = false)
    (hex : ∃ t ∈ (parseRmFlags rest).2.2.2, pexistsB st (safe_path t st.cwd) = true) :
    run_parts env st ("rm" :: rest) =
      (st, errRes "Permanent delete requires --yes-i-know flag alongside --permanent") := by
  rw [run_parts_rm]
  unfold rmCmd
  have hne : (parseRmFlags rest).2.2.2 ≠ [] := by
    obtain ⟨t, ht, _⟩ := hex
    intro h0
    rw [h0] at ht
    cases ht
  rw [if_neg hne, hp, hc]
  exact rmLoop_perm_noconfirm _ _ _ _ hex

theorem c4_rm_permanent_witness :
    (parseRmFlags ["--permanent", "f.txt"]).2.1 = true ∧
    (parseRmFlags ["--permanent", "f.txt"]).2.2.1 = false ∧
    (∃ t ∈ (parseRmFlags ["--permanent", "f.txt"]).2.2.2,
      pexistsB st0 (safe_path t st0.cwd) = true) ∧
    run_parts env0 st0 ["rm", "--permanent", "f.txt"] =
      (st0, errRes "Permanent delete requires --yes-i-know flag alongside --permanent") :=
  ⟨by decide, by decide, by decide,
    c4_rm_permanent_requires_confirmation env0 st0 ["--permanent", "f.txt"]
      (by decide) (by decide) (by decide)⟩

/-- C6 (amended): when the resolved target is not an existing directory and
no strict ancestor of it exists as a regular file, `write f t1 ... tn`
succeeds and a subsequent `read f` returns exactly the tokens joined by
single spaces.  (The unamended claim fails for e.g. `f = "."`, whose
resolved path is the working directory itself.) -/
theorem c6_write_then_read (env : Env) (st : EngineState) (f t0 : String)
    (ts : List String)
    (hdir : isDirB st (safe_path f st.cwd) = false)
    (hpar : parentBlocked st (safe_path f st.cwd) = false) :
    (run_parts env st ("write" :: f :: t0 :: ts)).2 =
      okRes ("Wrote " ++ (safe_path f st.cwd).getLastD "") ∧
    (run_parts env (run_parts env st ("write" :: f :: t0 :: ts)).1 ["read", f]).2 =
      okRes (strJoin " " (t0 :: ts)) := by
  rw [run_parts_write]
  have hw : writeCmd st (f :: t0 :: ts) =
      (⟨st.cwd, setFile st.files (safe_path f st.cwd) (strJoin " " (t0 :: ts)),
          addParents st.dirs (safe_path f st.cwd)⟩,
        okRes ("Wrote " ++ (safe_path f st.cwd).getLastD "")) := by
    simp [writeCmd, doWrite, hpar, hdir]
  rw [hw]
  refine ⟨rfl, ?_⟩
  rw [run_parts_read]
  simp [readCmd, isFileB, pexistsB, setFile, fileContent]

theorem c6_write_then_read_witness :
    isDirB st0 (safe_path "new.txt" st0.cwd) = false ∧
    parentBlocked st0 (safe_path "new.txt" st0.cwd) = false ∧
    (run_parts env0 st0 ["write", "new.txt", "hello", "world"]).2 =
      okRes ("Wrote " ++ (safe_path "new.txt" st0.cwd).getLastD "") ∧
    (run_parts env0 (run_parts env0 st0 ["write", "new.txt", "hello", "world"]).1
        ["read", "new.txt"]).2 = okRes (strJoin " " ["hello", "world"]) :=
  ⟨by decide, by decide,
    (c6_write_then_read env0 st0 "new.txt" "hello" ["world"] (by decide) (by decide)).1,
    (c6_write_then_read env0 st0 "new.txt" "hello" ["world"] (by decide) (by decide)).2⟩

/-- C6 counterexample: with `f = "."` (resolved to the working directory,
an existing directory) the write fails and the subsequent read does not
return the joined tokens — the claim's universal statement is false. -/
theorem c6_write_then_read_counterexample :
    ¬ ((run_parts env0 st0 ["write", ".", "hello", "world"]).2.ok = true ∧
      (run_parts env0 (run_parts env0 st0 ["write", ".", "hello", "world"]).1
        ["read", "."]).2 = okRes "hello world") := by decide

/-- Sandbox with one file `f.txt` and no trash directory yet. -/
def stB : EngineState := ⟨ROOT, [(ROOT ++ ["f.txt"], "one")], [ROOT]⟩

/-- `stB` after its `f.txt` was trashed and a second `f.txt` was created. -/
def stC : EngineState :=
  ⟨ROOT, [(ROOT ++ ["f.txt"], "two"), (TRASH ++ ["f.txt"], "one")], [TRASH, ROOT]⟩

/-- Trash holding both `f.txt` and `f_1.txt` (for the witness). -/
def stD : EngineState :=
  ⟨ROOT, [(TRASH ++ ["f.txt"], "one"), (TRASH ++ ["f_1.txt"], "two")], [ROOT, TRASH]⟩

/-- C5: the trash destination name is never an existing trash entry; on a
collision it is `f"{stem}_{n}{suffix}"` for the FIRST free `n ≥ 1` (all
smaller indices collide); and two successive trashings of files both named
`f.txt` yield the two distinct entries `f.txt` and `f_1.txt`. -/
theorem c5_trash_never_overwrites (st : EngineState) (name dn stem suf : String)
    (hdn : dn = (joinSeg TRASH name).getLastD "")
    (hstem : stem = pyStem dn ++ "_")
    (hsuf : suf = pySuffix dn) :
    pexistsB st (joinSeg TRASH (trashDestName st name)) = false ∧
    (pexistsB st (joinSeg TRASH name) = true →
      trashDestName st name = famName stem suf (freshIdx st TRASH stem suf) ∧
      (∀ m, 0 < m → m < freshIdx st TRASH stem suf →
        pexistsB st (joinSeg TRASH (famName stem suf m)) = true)) ∧
    _move_to_trash stB (ROOT ++ ["f.txt"]) =
      (⟨ROOT, [(TRASH ++ ["f.txt"], "one")], [TRASH, ROOT]⟩,
        .ok "Moved to trash: f.txt -> f.txt") ∧
    (_move_to_trash stC (ROOT ++ ["f.txt"])).2 = .ok "Moved to trash: f.txt -> f_1.txt" ∧
    fileContent (_move_to_trash stC (ROOT ++ ["f.txt"])).1.files (TRASH ++ ["f.txt"]) =
      some "one" ∧
    fileContent (_move_to_trash stC (ROOT ++ ["f.txt"])).1.files (TRASH ++ ["f_1.txt"]) =
      some "two" := by
  subst hdn
  subst hstem
  subst hsuf
  have hfindC : Nat.find (exists_free_pexists stC TRASH "f_" ".txt") = 0 := by
    rw [Nat.find_eq_zero]
    decide
  have hidxC : freshIdx stC TRASH "f_" ".txt" = 1 := by rw [freshIdx, hfindC]
  have hdestC : trashDestName stC "f.txt" = "f_1.txt" := by
    have hcol : pexistsB stC (joinSeg TRASH "f.txt") = true := by decide
    have e1 : pyStem ((joinSeg TRASH "f.txt").getLastD "") ++ "_" = "f_" := by decide
    have e2 : pySuffix ((joinSeg TRASH "f.txt").getLastD "") = ".txt" := by decide
    simp only [trashDestName, hcol, if_true, e1, e2, hidxC]
    decide
  have hdestC' :
      trashDestName { stC with dirs := insertPath stC.dirs TRASH } "f.txt" = "f_1.txt" := by
    rw [show ({ stC with dirs := insertPath stC.dirs TRASH } : EngineState) = stC from by decide]
    exact hdestC
  have hmtt : _move_to_trash stC (ROOT ++ ["f.txt"]) =
      (⟨ROOT, [(TRASH ++ ["f_1.txt"], "two"), (TRASH ++ ["f.txt"], "one")], [TRASH, ROOT]⟩,
        .ok "Moved to trash: f.txt -> f_1.txt") := by
    simp only [_move_to_trash,
      show (ROOT ++ ["f.txt"]).getLastD "" = "f.txt" from by decide, hdestC']
    decide
  refine ⟨?_, ?_, by decide, ?_, ?_, ?_⟩
  · by_cases h : pexistsB st (joinSeg TRASH name) = true
    · simp only [trashDestName, h, if_true]
      exact freshIdx_free st TRASH _ _
    · have hf : pexistsB st (joinSeg TRASH name) = false := by
        cases h2 : pexistsB st (joinSeg TRASH name)
        · rfl
        · exact absurd h2 h
      simp only [trashDestName, hf]
      simpa using hf
  · intro h
    refine ⟨by simp only [trashDestName, h, if_true], ?_⟩
    intro m hm hlt
    exact freshIdx_min st TRASH _ _ m hm hlt
  · rw [hmtt]
  · rw [hmtt]
    decide
  · rw [hmtt]
    decide

theorem c5_trash_never_overwrites_witness :
    pexistsB stD (joinSeg TRASH "f.txt") = true ∧
    trashDestName stD "f.txt" = famName "f_" ".txt" (freshIdx stD TRASH "f_" ".txt") ∧
    pexistsB stD (joinSeg TRASH (famName "f_" ".txt" 1)) = true := by
  have hmain := (c5_trash_never_overwrites stD "f.txt" "f.txt" "f_" ".txt"
    (by decide) (by decide) (by decide)).2.1 (by decide)
  have hfindD : Nat.find (exists_free_pexists stD TRASH "f_" ".txt") = 1 := by
    rw [Nat.find_eq_iff]
    exact ⟨by decide, by decide⟩
  have hidxD : freshIdx stD TRASH "f_" ".txt" = 2 := by rw [freshIdx, hfindD]
  refine ⟨by decide, hmain.1, ?_⟩
  exact hmain.2 1 (by decide) (by rw [hidxD]; decide)

theorem lineMatch_invalid (env : Env) (ic : Bool) (pat hay : String)
    (hv : env.rxValid pat = false) :
    lineMatch env ic true pat hay = lineMatch env ic false pat hay := by
  simp [lineMatch, hv]

theorem grepMatches_invalid (env : Env) (ic : Bool) (pat : String)
    (ls : List String) (hv : env.rxValid pat = false) :
    grepMatches env ic true pat ls = grepMatches env ic false pat ls := by
  unfold grepMatches
  congr 1
  funext p
  rw [lineMatch_invalid env ic pat p.2 hv]

/-- C8 (amended): for an invalid-regex pattern that does not itself begin
with `-`, `grep -E pattern file` behaves exactly like plain substring
`grep pattern file` (also with `-i`), line for line and in the same
`"<line#>:<line>"` format.  (The unamended claim fails for invalid patterns
beginning with `-`, which the flag scan consumes — see the
counterexample.) -/
theorem c8_grep_invalid_regex_degrades (env : Env) (st : EngineState)
    (pat fname : String)
    (hv : env.rxValid pat = false) (hd : headDash pat = false) :
    (∀ ic ls, grepMatches env ic true pat ls = grepMatches env ic false pat ls) ∧
    run_parts env st ["grep", "-E", pat, fname] = run_parts env st ["grep", pat, fname] ∧
    run_parts env st ["grep", "-i", "-E", pat, fname] =
      run_parts env st ["grep", "-i", pat, fname] := by
  have hE : headDash "-E" = true := by decide
  have hI : headDash "-i" = true := by decide
  refine ⟨fun ic ls => grepMatches_invalid env ic pat ls hv, ?_, ?_⟩
  · rw [run_parts_grep, run_parts_grep]
    have h1 : grepParse ["-E", pat, fname] false false = (false, true, [pat, fname]) := by
      simp [grepParse, hE, hd]
    have h2 : grepParse [pat, fname] false false = (false, false, [pat, fname]) := by
      simp [grepParse, hd]
    have h3 : ∀ ls, grepMatches env false true pat ls = grepMatches env false false pat ls :=
      fun ls => grepMatches_invalid env false pat ls hv
    simp [grepCmd, h1, h2, h3]
  · rw [run_parts_grep, run_parts_grep]
    have h1 : grepParse ["-i", "-E", pat, fname] false false = (true, true, [pat, fname]) := by
      simp [grepParse, hE, hI, hd]
    have h2 : grepParse ["-i", pat, fname] false false = (true, false, [pat, fname]) := by
      simp [grepParse, hI, hd]
    have h3 : ∀ ls, grepMatches env true true pat ls = grepMatches env true false pat ls :=
      fun ls => grepMatches_invalid env true pat ls hv
    simp [grepCmd, h1, h2, h3]

theorem c8_grep_invalid_regex_witness :
    env0.rxValid "x" = false ∧ headDash "x" = false ∧
    run_parts env0 st0 ["grep", "-E", "x", "f.txt"] =
      run_parts env0 st0 ["grep", "x", "f.txt"] :=
  ⟨rfl, by decide,
    (c8_grep_invalid_regex_degrades env0 st0 "x" "f.txt" rfl (by decide)).2.1⟩

/-- C8 counterexample: the invalid regex `-[` (in `env0`'s regex oracle all
patterns are invalid, as Python's `re` holds for `-[`) begins with `-`, so
the flag scan of `grep -E -[ f.txt` consumes it and the command FAILS with
a usage error instead of degrading to substring matching — although the
file's line `x-[y` contains the pattern as a literal substring. -/
theorem c8_grep_invalid_regex_counterexample :
    env0.rxValid "-[" = false ∧
    substrMatch false "-[" "x-[y" = true ∧
    (run_parts env0
        ⟨ROOT, [(ROOT ++ ["f.txt"], "x-[y")], [ROOT]⟩
        ["grep", "-E", "-[", "f.txt"]).2 =
      errRes "usage: grep [-i] [-E] pattern filename" := by decide

/-- C9: the native-process fallback truncates stdout and stderr
independently: output longer than `MAX_OUTPUT_CHARS` characters becomes
exactly the first `MAX_OUTPUT_CHARS` characters plus the trailing marker
(so its length is exactly the ceiling plus the marker length); output at or
below the ceiling is returned unchanged; and a fallback verb such as `ls`
returns exactly the truncation of the spawned result. -/
theorem c9_fallback_truncation (r : CommandResult) :
    (r.stdout.length > MAX_OUTPUT_CHARS →
      (applyTruncation r).stdout =
        (⟨r.stdout.data.take MAX_OUTPUT_CHARS⟩ : String) ++ "\n[truncated output]" ∧
      (applyTruncation r).stdout.length =
        MAX_OUTPUT_CHARS + ("\n[truncated output]" : String).length) ∧
    (¬ r.stdout.length > MAX_OUTPUT_CHARS → (applyTruncation r).stdout = r.stdout) ∧
    (r.stderr.length > MAX_OUTPUT_CHARS →
      (applyTruncation r).stderr =
        (⟨r.stderr.data.take MAX_OUTPUT_CHARS⟩ : String) ++ "\n[truncated stderr]" ∧
      (applyTruncation r).stderr.length =
        MAX_OUTPUT_CHARS + ("\n[truncated stderr]" : String).length) ∧
    (¬ r.stderr.length > MAX_OUTPUT_CHARS → (applyTruncation r).stderr = r.stderr) ∧
    (∀ (env : Env) (st : EngineState) (args : List String),
      run_parts env st ("ls" :: args) =
        (st, applyTruncation (env.spawn (("ls" :: args).map (fallbackArg st)) st.cwd))) := by
  have hlen : ∀ (s : String), s.length = s.data.length := fun _ => rfl
  have htake : ∀ (s : String), s.length > MAX_OUTPUT_CHARS →
      ((⟨s.data.take MAX_OUTPUT_CHARS⟩ : String)).length = MAX_OUTPUT_CHARS := by
    intro s h
    show (s.data.take MAX_OUTPUT_CHARS).length = MAX_OUTPUT_CHARS
    rw [List.length_take]
    have := hlen s
    omega
  refine ⟨?_, ?_, ?_, ?_, ?_⟩
  · intro h
    have hout : (applyTruncation r).stdout =
        (⟨r.stdout.data.take MAX_OUTPUT_CHARS⟩ : String) ++ "\n[truncated output]" := by
      simp only [applyTruncation]
      rw [if_pos h]
    refine ⟨hout, ?_⟩
    rw [hout, strLength_append, htake r.stdout h]
  · intro h
    simp only [applyTruncation]
    rw [if_neg h]
  · intro h
    have hout : (applyTruncation r).stderr =
        (⟨r.stderr.data.take MAX_OUTPUT_CHARS⟩ : String) ++ "\n[truncated stderr]" := by
      simp only [applyTruncation]
      rw [if_pos h]
    refine ⟨hout, ?_⟩
    rw [hout, strLength_append, htake r.stderr h]
  · intro h
    simp only [applyTruncation]
    rw [if_neg h]
  · intro env st args
    rw [run_parts_ls]
    rfl

/-- A raw result with an over-long stdout, for the truncation witness. -/
def bigR : CommandResult :=
  { ok := true, stdout := ⟨List.replicate 20001 'a'⟩, stderr := "" }

theorem c9_fallback_truncation_witness :
    bigR.stdout.length > MAX_OUTPUT_CHARS ∧
    (applyTruncation bigR).stdout.length =
      MAX_OUTPUT_CHARS + ("\n[truncated output]" : String).length ∧
    ¬ bigR.stderr.length > MAX_OUTPUT_CHARS ∧
    (applyTruncation bigR).stderr = bigR.stderr := by
  have h1 : bigR.stdout.length > MAX_OUTPUT_CHARS := by
    show (List.replicate 20001 'a').length > MAX_OUTPUT_CHARS
    rw [List.length_replicate]
    decide
  have h2 : ¬ bigR.stderr.length > MAX_OUTPUT_CHARS := by decide
  exact ⟨h1, ((c9_fallback_truncation bigR).1 h1).2, h2,
    (c9_fallback_truncation bigR).2.2.2.1 h2⟩
